import Mathlib

/-!
A shallow embedding of the flowweave workflow engine
(src/flowweave/flowweave.py, src/flowweave/base.py), with theorems about
its option merger, combination expander, task runner, stage/DAG scheduler
and flow executor.

Python values appearing in option dictionaries are modelled by the
inductive type Value (scalars, lists, ordered dicts).  Python dicts are
modelled as ordered association lists, matching the insertion-order
semantics of Python dicts.  Equality on values is structural; Python's
key-order-insensitive dict equality only differs on dicts built in
different key orders, which the merger never produces from equal inputs.

Exceptions are modelled with Except.  Thread-pool futures are modelled by
a submission log: submitting a task appends a Submission to the log and
returns its index; resolving the log afterwards yields each future's
outcome.  This is faithful for observable results because every future's
value is a deterministic function of its predecessor's value.
-/
inductive Value where
  | str (s : String)
  | int (n : Int)
  | bool (b : Bool)
  | list (xs : List Value)
  | dict (entries : List (String × Value))
deriving Repr

/-- Python dict with Value values: an ordered association list. -/
abbrev Dict := List (String × Value)

/-- isinstance(x, Mapping) / isinstance(x, dict). -/
def isDict : Value → Bool
  | .dict _ => true
  | _ => false

/-- isinstance(x, list). -/
def isList : Value → Bool
  | .list _ => true
  | _ => false

def Value.dictEntries : Value → Dict
  | .dict m => m
  | _ => []

def Value.listItems : Value → List Value
  | .list xs => xs
  | _ => []

theorem Value.one_le_sizeOf (v : Value) : 1 ≤ sizeOf v := by
  cases v <;> simp_arith

theorem Value.sizeOf_dictEntries_le (v : Value) : sizeOf v.dictEntries ≤ sizeOf v := by
  cases v <;> simp_arith [Value.dictEntries]

theorem Value.sizeOf_listItems_le (v : Value) : sizeOf v.listItems ≤ sizeOf v := by
  cases v <;> simp_arith [Value.listItems]

theorem one_le_sizeOf_list {α : Type} [SizeOf α] (l : List α) : 1 ≤ sizeOf l := by
  cases l <;> simp_arith

/-! Python == on values (structural). -/
mutual
def Value.beq : Value → Value → Bool
  | .str a, .str b => a == b
  | .int a, .int b => a == b
  | .bool a, .bool b => a == b
  | .list xs, .list ys => Value.beqList xs ys
  | .dict xs, .dict ys => Value.beqDict xs ys
  | _, _ => false
termination_by v _ => sizeOf v

def Value.beqList : List Value → List Value → Bool
  | [], [] => true
  | x :: xs, y :: ys => Value.beq x y && Value.beqList xs ys
  | _, _ => false
termination_by v _ => sizeOf v

def Value.beqDict : List (String × Value) → List (String × Value) → Bool
  | [], [] => true
  | (k, v) :: xs, (k2, w) :: ys => k == k2 && Value.beq v w && Value.beqDict xs ys
  | _, _ => false
termination_by v _ => sizeOf v
end

/-- Python `k in d` / `d[k]` for an ordered dict. -/
def Dict.lookup (d : Dict) (k : String) : Option Value :=
  match d with
  | [] => none
  | (k2, v) :: rest => if k2 = k then some v else Dict.lookup rest k

/-- Python `d[k] = v` for an ordered dict: updates in place if the key
exists (keeping its position), else appends, matching insertion order. -/
def Dict.setKey (d : Dict) (k : String) (v : Value) : Dict :=
  match d with
  | [] => [(k, v)]
  | (k2, w) :: rest => if k2 = k then (k2, v) :: rest else (k2, w) :: Dict.setKey rest k v

/-- Python `x in xs` for a list of values (membership by ==). -/
def pyIn (x : Value) (xs : List Value) : Bool :=
  xs.any (fun y => Value.beq y x)

/-- The `for i, existing in enumerate(result): if isinstance(existing, dict)`
search of FlowWeave._merge_to_list: index and entries of the first
dict-typed element. -/
def firstDictIdx (result : List Value) : Option (Nat × Dict) :=
  match result with
  | [] => none
  | Value.dict em :: _ => some (0, em)
  | _ :: rest => (firstDictIdx rest).map (fun p => (p.1 + 1, p.2))

/-!
FlowWeave._deep_merge (flowweave.py lines 364-382) and
FlowWeave._merge_to_list (lines 384-404).  The Python functions deep-copy
their inputs and mutate only those fresh copies; the pure functions below
compute the same resulting values.  (The copy/mutation discipline itself
is modelled and proved separately on an explicit heap further down.)

deep_merge's `for k, v in b.items()` loop is mergeLoop; _merge_to_list's
`for item in b_list` loop is itemsLoop, with the first-dict search and
in-place update expressed via firstDictIdx and List.set.
-/
mutual
def deep_merge (a b : Dict) : Dict :=
  mergeLoop a b
termination_by 3 * sizeOf b + 1

def mergeLoop (result : Dict) (bs : Dict) : Dict :=
  match bs with
  | [] => result
  | (k, v) :: rest =>
    let result2 :=
      match Dict.lookup result k with
      | some av =>
        if isDict av && isDict v then
          Dict.setKey result k (Value.dict (deep_merge av.dictEntries v.dictEntries))
        else if isList av || isList v then
          Dict.setKey result k (Value.list (merge_to_list av v))
        else
          Dict.setKey result k v
      | none => result ++ [(k, v)]
    mergeLoop result2 rest
termination_by 3 * sizeOf bs
decreasing_by
  all_goals simp_wf
  all_goals
    first
      | omega
      | (have h1 := Value.sizeOf_dictEntries_le v
         have h2 := one_le_sizeOf_list rest
         omega)

def merge_to_list (a_val b_val : Value) : List Value :=
  let a_list := if isList a_val then a_val.listItems else [a_val]
  let b_list := if isList b_val then b_val.listItems else [b_val]
  itemsLoop a_list b_list
termination_by 3 * sizeOf b_val + 7
decreasing_by
  all_goals simp_wf
  all_goals
    (have h1 := Value.sizeOf_listItems_le b_val
     split
     · omega
     · simp_arith)

def itemsLoop (result : List Value) (items : List Value) : List Value :=
  match items with
  | [] => result
  | item :: rest =>
    let result2 :=
      if isDict item then
        match firstDictIdx result with
        | some (i, em) => result.set i (Value.dict (deep_merge em item.dictEntries))
        | none => result ++ [item]
      else if pyIn item result then result else result ++ [item]
    itemsLoop result2 rest
termination_by 3 * sizeOf items
decreasing_by
  all_goals simp_wf
  all_goals
    first
      | omega
      | (have h1 := Value.sizeOf_dictEntries_le item
         have h2 := one_le_sizeOf_list rest
         omega)
end

/-- FlowWeave._deep_merge_many: reduce(FlowWeave._deep_merge, dicts).
The engine only calls it with exactly three dictionaries. -/
def deep_merge_many (ds : List Dict) : Dict :=
  match ds with
  | [] => []
  | d :: rest => rest.foldl deep_merge d

/-! ## Results, exceptions, task records (base.py and flowweave.py) -/
/-- base.py FlowWeaveResult(IntEnum): FAIL = 0, SUCCESS = 1, IGNORE = 2. -/
inductive FlowWeaveResult where
  | FAIL
  | SUCCESS
  | IGNORE
deriving DecidableEq, Repr

/-- Python exceptions observable in the engine.  cycleError stands for the
`Exception("Cycle detected at task ...")` of FlowWeave._run_task,
opNotFound for its `Exception("module of op ... not found")`,
fuelExhausted is an artifact of the fuel-bounded embedding of the
recursive traversal and is never produced when the fuel exceeds the
number of tasks in the stage. -/
inductive PyExc where
  | attributeError (msg : String)
  | typeError (msg : String)
  | cycleError (task : String)
  | opNotFound (task : String)
  | handlerExc (msg : String)
  | fuelExhausted
deriving DecidableEq, Repr

/-- The record TaskRunner.start returns (flowweave.py lines 86-91):
{"name": ..., "option": ..., "data": ..., "result": ...}. -/
structure TaskRecord where
  name : String
  option : Dict
  data : Option Value
  result : FlowWeaveResult
deriving Repr

/-- The behaviour of one operation's task-handler class, abstracted: the
constructor `task_class(prev_result)` either raises constructErr or
succeeds, and calling the configured instance `task_instance()` either
raises or returns a (result, data) pair.  Attribute injection
(`setattr` of task_data and matching option keys) configures the
instance and is absorbed into this behaviour record. -/
structure Handler where
  constructErr : Option PyExc
  invoke : Except PyExc (FlowWeaveResult × Option Value)

/-- base.py TaskData. -/
structure TaskData where
  name : String
  task_class : Handler
  option : Dict
  stage_name : String
  flow_part : Nat
  flow_all : Nat
  do_only : Option String
  show_log : Bool

/-- The `run_task` flag computed by TaskRunner.start lines 61-66: gating
of execution on the predecessor's result. -/
def run_task_flag (prev_result : Option TaskRecord) (do_only : Option String) : Bool :=
  match prev_result with
  | none => true
  | some p =>
    if do_only = some "pre_success" then p.result = FlowWeaveResult.SUCCESS
    else if do_only = some "pre_fail" then p.result = FlowWeaveResult.FAIL
    else true

/-- TaskRunner.start (flowweave.py lines 47-91).  Constructing the handler
is guarded only by `except AttributeError: raise TypeError(...)`: an
AttributeError is converted to a TypeError and raised, any other
constructor exception propagates unchanged.  Only the invocation
`task_instance()` is guarded by `except Exception`, which converts a
raising handler into a FAIL record with data None. -/
def TaskRunner.start (prev_result : Option TaskRecord) (task_data : TaskData) :
    Except PyExc TaskRecord :=
  match task_data.task_class.constructErr with
  | some (PyExc.attributeError _) =>
    Except.error (PyExc.typeError "Failed to get instance")
  | some e => Except.error e
  | none =>
    if run_task_flag prev_result task_data.do_only then
      match task_data.task_class.invoke with
      | Except.ok (task_result, return_data) =>
        Except.ok { name := task_data.name, option := task_data.option,
                    data := return_data, result := task_result }
      | Except.error _ =>
        Except.ok { name := task_data.name, option := task_data.option,
                    data := none, result := FlowWeaveResult.FAIL }
    else
      Except.ok { name := task_data.name, option := task_data.option,
                  data := none, result := FlowWeaveResult.IGNORE }

/-! ## Stage/DAG scheduler (FlowWeave._run_stage, _run_task, _submit_task) -/
/-- Python dict.get for a string-keyed mapping with arbitrary values. -/
def alist_get {α : Type} (d : List (String × α)) (k : String) : Option α :=
  match d with
  | [] => none
  | (k2, v) :: rest => if k2 = k then some v else alist_get rest k

/-- The chain descriptor of a task: `part` and `next` as they appear in a
task's YAML `chain` mapping; `next` is absent, a single name, or a list
of names. -/
inductive NextField where
  | absent
  | one (s : String)
  | many (ls : List String)

structure ChainSpec where
  part : Option String
  next : NextField

/-- task_dic.get("chain", {}).get("part", "head"). -/
def chain_part (c : Option ChainSpec) : String :=
  match c with
  | none => "head"
  | some cs => cs.part.getD "head"

/-- links = task_dic.get("chain", {}).get("next", []);
links = links if isinstance(links, list) else [links]  (lines 449-450). -/
def chain_links (c : Option ChainSpec) : List String :=
  match c with
  | none => []
  | some cs =>
    match cs.next with
    | NextField.absent => []
    | NextField.one s => [s]
    | NextField.many ls => ls

/-- One task's entry in a stage of the flow description: its op code, its
task-local option overrides (task_dic.get("option", {})), its gating mode
(task_dic.get("do_only")) and its chain descriptor. -/
structure TaskSpec where
  op : String
  option : Dict
  do_only : Option String
  chain : Option ChainSpec

/-- StageData (flowweave.py lines 25-34).  stage_info maps task names to
TaskSpec in declaration order; op_dic maps op codes to handlers.
Python's `stage_data.default_option or {}` and `global_option or {}`
are the identity on dictionaries (None never reaches here because
run_flow defaults them to {}). -/
structure StageData where
  name : String
  stage_info : List (String × TaskSpec)
  default_option : Dict
  global_option : Dict
  op_dic : List (String × Handler)
  flow_part : Nat
  flow_all : Nat

/-- One call of FlowWeave._submit_task: the submitted closure, identified
by its position in the submission log, remembers the TaskData and the
index of the predecessor future whose result it awaits before calling
TaskRunner.start. -/
structure Submission where
  task_data : TaskData
  prev : Option Nat

/-!
FlowWeave._run_task (lines 419-461), with the thread pool replaced by the
submission log: _submit_task appends a Submission and the future is its
log index.  The Python `visited` set is threaded as a list; `visited.add`
before the recursion plus `visited.copy()` per child call make each child
see the path set including all its ancestors, and the `finally:
visited.remove` acts on a per-call copy that the caller never reads
again, so passing (task_name :: visited) to the children is equivalent.
A raised exception leaves already-submitted futures in the log, exactly
as already-submitted thread-pool work keeps running in the source.

run_links is the `for link in links: futures.extend(...)` loop; fuel
bounds the recursion depth (the visited check bounds the real depth by
the number of tasks in the stage, so any fuel beyond that is enough).
-/
mutual
def run_task (fuel : Nat) (sd : StageData) (task_name : String) (prev_future : Option Nat)
    (visited : List String) (log : List Submission) :
    List Submission × Except PyExc (List Nat) :=
  if task_name ∈ visited then
    (log, Except.error (PyExc.cycleError task_name))
  else
    match fuel with
    | 0 => (log, Except.error PyExc.fuelExhausted)
    | fuel + 1 =>
      match alist_get sd.stage_info task_name with
      | none =>
        -- stage_info.get(task_name) is None; task_dic.get('op') raises
        (log, Except.error (PyExc.attributeError "NoneType has no attribute get"))
      | some task_dic =>
        match alist_get sd.op_dic task_dic.op with
        | none => (log, Except.error (PyExc.opNotFound task_name))
        | some task_module =>
          let task_option :=
            deep_merge_many [sd.default_option, sd.global_option, task_dic.option]
          let task_data : TaskData :=
            { name := task_name, task_class := task_module, option := task_option,
              stage_name := sd.name, flow_part := sd.flow_part,
              flow_all := sd.flow_all, do_only := task_dic.do_only,
              show_log := false }
          let future := log.length
          let log2 := log ++ [{ task_data := task_data, prev := prev_future }]
          run_links fuel sd (chain_links task_dic.chain) future
            (task_name :: visited) log2 [future]
termination_by (fuel, 0)

def run_links (fuel : Nat) (sd : StageData) (links : List String) (future : Nat)
    (visited : List String) (log : List Submission) (futures : List Nat) :
    List Submission × Except PyExc (List Nat) :=
  match links with
  | [] => (log, Except.ok futures)
  | link :: rest =>
    match run_task fuel sd link (some future) visited log with
    | (log2, Except.error e) => (log2, Except.error e)
    | (log2, Except.ok fs) =>
      run_links fuel sd rest future visited log2 (futures ++ fs)
termination_by (fuel, links.length + 1)
end

/-- The head-discovery loop of FlowWeave._run_stage (lines 345-350): every
task whose chain part is "head" roots a traversal; the futures of all
traversals are collected in order. -/
def heads_loop (fuel : Nat) (sd : StageData) (tasks : List (String × TaskSpec))
    (log : List Submission) (all_futures : List Nat) :
    List Submission × Except PyExc (List Nat) :=
  match tasks with
  | [] => (log, Except.ok all_futures)
  | (task_name, task_dic) :: rest =>
    if chain_part task_dic.chain = "head" then
      match run_task fuel sd task_name none [] log with
      | (log2, Except.error e) => (log2, Except.error e)
      | (log2, Except.ok fs) => heads_loop fuel sd rest log2 (all_futures ++ fs)
    else
      heads_loop fuel sd rest log all_futures

/-- The submission phase of FlowWeave._run_stage: the final submission log
and either the collected futures or the exception that aborted it. -/
def run_stage_build (fuel : Nat) (sd : StageData) :
    List Submission × Except PyExc (List Nat) :=
  heads_loop fuel sd sd.stage_info [] []

/-- The outcome of one submitted future: the closure of _submit_task first
re-raises its predecessor's exception, if any (prev_future.result()),
then runs TaskRunner.start on the predecessor's record. -/
def resolve_future (resolved : List (Except PyExc TaskRecord)) (prev : Option Nat)
    (td : TaskData) : Except PyExc TaskRecord :=
  match prev with
  | none => TaskRunner.start none td
  | some i =>
    match resolved.getD i (Except.error PyExc.fuelExhausted) with
    | Except.error e => Except.error e
    | Except.ok r => TaskRunner.start (some r) td

/-- Resolve every future of a submission log in order.  A submission's
predecessor index always precedes it in the log, so the fold has already
resolved it. -/
def resolve_log (log : List Submission) : List (Except PyExc TaskRecord) :=
  log.foldl (fun acc sub => acc ++ [resolve_future acc sub.prev sub.task_data]) []

/-- One iteration of the await loop of FlowWeave._run_stage (lines
353-360): a FAIL record or a raising future forces stage FAIL, anything
else leaves the accumulator unchanged. -/
def await_step (stage_result : FlowWeaveResult) (f : Except PyExc TaskRecord) :
    FlowWeaveResult :=
  match f with
  | Except.ok r =>
    if r.result = FlowWeaveResult.FAIL then FlowWeaveResult.FAIL else stage_result
  | Except.error _ => FlowWeaveResult.FAIL

/-- The await loop of FlowWeave._run_stage (lines 352-361): FAIL if any
future resolves to a FAIL record or raises; IGNORE records leave the
accumulator unchanged. -/
def await_futures (outcomes : List (Except PyExc TaskRecord)) : FlowWeaveResult :=
  outcomes.foldl await_step FlowWeaveResult.SUCCESS

/-- FlowWeave._run_stage (lines 340-362): submit all head chains, then
await every collected future. -/
def run_stage (fuel : Nat) (sd : StageData) : Except PyExc FlowWeaveResult :=
  match run_stage_build fuel sd with
  | (_, Except.error e) => Except.error e
  | (log, Except.ok futures) =>
    let resolved := resolve_log log
    Except.ok (await_futures
      (futures.map (fun i => resolved.getD i (Except.error PyExc.fuelExhausted))))

/-! ## Flow executor (FlowWeave.run_flow) and combination expander -/
/-- The flow description as the engine reads it after schema validation:
flow_data.get("flow"), flow_data.get("stage", {}),
flow_data.get("default_option", {}), flow_data.get("global_option").
global_option is None when the key is absent. -/
structure FlowData where
  flow : List String
  stage : List (String × List (String × TaskSpec))
  default_option : Dict
  global_option : Option (List (String × List (String × List Value)))

/-- Python `a |= b` on dicts: shallow update of a with b's entries. -/
def dict_update (a b : Dict) : Dict :=
  b.foldl (fun acc kv => Dict.setKey acc kv.1 kv.2) a

/-- FlowWeave._get_stage_global_option (lines 330-338): collect the option
dicts of every group whose comma-separated stage list contains this
stage, shallow-merged in group order. -/
def get_stage_global_option (global_cmb : List (String × Dict)) (stage : String) : Dict :=
  global_cmb.foldl
    (fun acc p =>
      let stage_list := (p.1.splitOn ",").map (fun x => x.trim)
      if stage ∈ stage_list then dict_update acc p.2 else acc)
    []

/-- What run_flow reports for one stage of the declared sequence: executed
with a result, or reported ignored because the flow is already FAIL. -/
inductive StageEvent where
  | ran (stage : String) (result : FlowWeaveResult)
  | ignored (stage : String)
deriving DecidableEq, Repr

def StageEvent.stageName : StageEvent → String
  | .ran s _ => s
  | .ignored s => s

/-- The stage loop of FlowWeave.run_flow (lines 307-326).  An exception
raised by _run_stage propagates out of run_flow (there is no handler on
this path); the events of the stages already finished are reported
alongside. -/
def flow_loop (fuel : Nat) (fd : FlowData) (global_cmb : List (String × Dict))
    (op_dic : List (String × Handler)) (part all : Nat)
    (stages : List String) (flow_result : FlowWeaveResult) :
    List StageEvent × Except PyExc FlowWeaveResult :=
  match stages with
  | [] => ([], Except.ok flow_result)
  | stage :: rest =>
    if flow_result = FlowWeaveResult.FAIL then
      let p := flow_loop fuel fd global_cmb op_dic part all rest flow_result
      (StageEvent.ignored stage :: p.1, p.2)
    else
      match alist_get fd.stage stage with
      | none =>
        -- stage_info is None; _run_stage's stage_info.items() raises
        ([], Except.error (PyExc.attributeError "NoneType has no attribute items"))
      | some stage_info =>
        let sd : StageData :=
          { name := stage, stage_info := stage_info,
            default_option := fd.default_option,
            global_option := get_stage_global_option global_cmb stage,
            op_dic := op_dic, flow_part := part, flow_all := all }
        match run_stage fuel sd with
        | Except.error e => ([], Except.error e)
        | Except.ok result =>
          let flow_result2 :=
            if result = FlowWeaveResult.FAIL then FlowWeaveResult.FAIL else flow_result
          let p := flow_loop fuel fd global_cmb op_dic part all rest flow_result2
          (StageEvent.ran stage result :: p.1, p.2)

/-- FlowWeave.run_flow (lines 296-328) for one combination, returning the
per-stage events next to the flow result. -/
def run_flow (fuel : Nat) (fd : FlowData) (global_cmb : List (String × Dict))
    (op_dic : List (String × Handler)) (part all : Nat) :
    List StageEvent × Except PyExc FlowWeaveResult :=
  flow_loop fuel fd global_cmb op_dic part all fd.flow FlowWeaveResult.SUCCESS

/-- itertools.product over a list of candidate lists, in itertools order
(first factor varies slowest). -/
def list_product {α : Type} : List (List α) → List (List α)
  | [] => [[]]
  | l :: ls => l.flatMap (fun x => (list_product ls).map (fun t => x :: t))

/-- The inner comprehension of FlowWeave._get_global_option_comb (lines
286-287): [dict(zip(inner_dict.keys(), v)) for v in
itertools.product(*inner_dict.values())]. -/
def inner_combos (inner : List (String × List Value)) : List Dict :=
  (list_product (inner.map Prod.snd)).map (fun vs => (inner.map Prod.fst).zip vs)

/-- FlowWeave._get_global_option_comb (lines 280-294): the cartesian
product across groups of the per-group products. -/
def get_global_option_comb (g : List (String × List (String × List Value))) :
    List (List (String × Dict)) :=
  (list_product (g.map (fun e => inner_combos e.2))).map
    (fun cs => (g.map Prod.fst).zip cs)

/-- Lines 120-125 of FlowWeave.run: comb_list is [{}] when global_option
is absent or empty (Python falsiness), else the expanded combinations. -/
def get_comb_list (go : Option (List (String × List (String × List Value)))) :
    List (List (String × Dict)) :=
  match go with
  | none => [[]]
  | some g => if g.isEmpty then [[]] else get_global_option_comb g

/-- The sequential combination loop of FlowWeave.run (lines 131-153):
run_flow per combination in order; an exception propagates out of run
and every later combination is never started. -/
def run_combs (fuel : Nat) (fd : FlowData) (op_dic : List (String × Handler))
    (combs : List (List (String × Dict))) (part all : Nat) :
    Except PyExc (List FlowWeaveResult) :=
  match combs with
  | [] => Except.ok []
  | comb :: rest =>
    match (run_flow fuel fd comb op_dic part all).2 with
    | Except.error e => Except.error e
    | Except.ok r =>
      match run_combs fuel fd op_dic rest (part + 1) all with
      | Except.error e => Except.error e
      | Except.ok rs => Except.ok (r :: rs)

/-- FlowWeave.run in sequential mode (parallel=False), after the flow file
is loaded and the op handlers are resolved. -/
def run_seq (fuel : Nat) (fd : FlowData) (op_dic : List (String × Handler)) :
    Except PyExc (List FlowWeaveResult) :=
  let comb_list := get_comb_list fd.global_option
  run_combs fuel fd op_dic comb_list 1 comb_list.length

/-!
## Heap model of the option merger's copy/mutation discipline

The pure deep_merge above computes result values.  To state that
FlowWeave._deep_merge is non-mutating — `result = copy.deepcopy(a)`
followed by writes only to objects it freshly allocated — the functions
are re-embedded over an explicit heap of Python objects.  Addresses are
indexes into the heap list; allocation appends, `result[k] = ...` and
`result[i] = ...` write through Heap-level setters.  Every function takes
fuel and decrements it on every inner call; with enough fuel the
behaviour is that of the source (Python recursion has no fuel, but its
depth is bounded by the values' size).
-/
inductive HObj where
  | hstr (s : String)
  | hint (n : Int)
  | hbool (b : Bool)
  | hlist (elems : List Nat)
  | hdict (entries : List (String × Nat))
deriving DecidableEq, Repr

abbrev Heap := List HObj

def Heap.alloc (h : Heap) (o : HObj) : Heap × Nat := (h ++ [o], h.length)

def isDictAt (h : Heap) (a : Nat) : Bool :=
  match h[a]? with
  | some (HObj.hdict _) => true
  | _ => false

def isListAt (h : Heap) (a : Nat) : Bool :=
  match h[a]? with
  | some (HObj.hlist _) => true
  | _ => false

/-- Generic ordered-dict assignment (Python d[k] = v) on address-valued
entries. -/
def alist_set {α : Type} (d : List (String × α)) (k : String) (v : α) :
    List (String × α) :=
  match d with
  | [] => [(k, v)]
  | (k2, w) :: rest => if k2 = k then (k2, v) :: rest else (k2, w) :: alist_set rest k v

/-- `result[k] = v` where result is the dict object at address r. -/
def dictSetAt (h : Heap) (r : Nat) (k : String) (v : Nat) : Heap :=
  match h[r]? with
  | some (HObj.hdict ents) => h.set r (HObj.hdict (alist_set ents k v))
  | _ => h

/-! Python == between two heap values (structural comparison by value). -/
mutual
def pyEqH (fuel : Nat) (h : Heap) (x y : Nat) : Option Bool :=
  match fuel with
  | 0 => none
  | fuel + 1 =>
    match h[x]?, h[y]? with
    | some (HObj.hstr a), some (HObj.hstr b) => some (a == b)
    | some (HObj.hint a), some (HObj.hint b) => some (a == b)
    | some (HObj.hbool a), some (HObj.hbool b) => some (a == b)
    | some (HObj.hlist xs), some (HObj.hlist ys) => pyEqListH fuel h xs ys
    | some (HObj.hdict xs), some (HObj.hdict ys) => pyEqDictH fuel h xs ys
    | some _, some _ => some false
    | _, _ => none
termination_by (fuel, 0)

def pyEqListH (fuel : Nat) (h : Heap) (xs ys : List Nat) : Option Bool :=
  match fuel with
  | 0 => none
  | fuel + 1 =>
    match xs, ys with
    | [], [] => some true
    | x :: xs2, y :: ys2 =>
      match pyEqH fuel h x y with
      | none => none
      | some false => some false
      | some true => pyEqListH fuel h xs2 ys2
    | _, _ => some false
termination_by (fuel, 1)

def pyEqDictH (fuel : Nat) (h : Heap) (xs ys : List (String × Nat)) : Option Bool :=
  match fuel with
  | 0 => none
  | fuel + 1 =>
    match xs, ys with
    | [], [] => some true
    | (k, x) :: xs2, (k2, y) :: ys2 =>
      if k = k2 then
        match pyEqH fuel h x y with
        | none => none
        | some false => some false
        | some true => pyEqDictH fuel h xs2 ys2
      else some false
    | _, _ => some false
termination_by (fuel, 1)
end

/-- Python `item in result` over heap addresses. -/
def pyInH (fuel : Nat) (h : Heap) (x : Nat) (elems : List Nat) : Option Bool :=
  match fuel with
  | 0 => none
  | fuel + 1 =>
    match elems with
    | [] => some false
    | e :: rest =>
      match pyEqH fuel h e x with
      | none => none
      | some true => some true
      | some false => pyInH fuel h x rest

/-- First dict-typed element (index and address) of a heap list. -/
def firstDictIdxH (h : Heap) (elems : List Nat) : Option (Nat × Nat) :=
  match elems with
  | [] => none
  | e :: rest =>
    if isDictAt h e then some (0, e)
    else (firstDictIdxH h rest).map (fun p => (p.1 + 1, p.2))

mutual
/-- copy.deepcopy on the heap: fresh copies of every reachable object. -/
def deepcopyH (fuel : Nat) (h : Heap) (a : Nat) : Option (Heap × Nat) :=
  match fuel with
  | 0 => none
  | fuel + 1 =>
    match h[a]? with
    | none => none
    | some (HObj.hstr s) => some (Heap.alloc h (HObj.hstr s))
    | some (HObj.hint n) => some (Heap.alloc h (HObj.hint n))
    | some (HObj.hbool b) => some (Heap.alloc h (HObj.hbool b))
    | some (HObj.hlist es) =>
      match deepcopyListH fuel h es with
      | none => none
      | some (h2, es2) => some (Heap.alloc h2 (HObj.hlist es2))
    | some (HObj.hdict en) =>
      match deepcopyDictH fuel h en with
      | none => none
      | some (h2, en2) => some (Heap.alloc h2 (HObj.hdict en2))
termination_by fuel

def deepcopyListH (fuel : Nat) (h : Heap) (es : List Nat) : Option (Heap × List Nat) :=
  match fuel with
  | 0 => none
  | fuel + 1 =>
    match es with
    | [] => some (h, [])
    | e :: rest =>
      match deepcopyH fuel h e with
      | none => none
      | some (h2, c) =>
        match deepcopyListH fuel h2 rest with
        | none => none
        | some (h3, cs) => some (h3, c :: cs)
termination_by fuel

def deepcopyDictH (fuel : Nat) (h : Heap) (en : List (String × Nat)) :
    Option (Heap × List (String × Nat)) :=
  match fuel with
  | 0 => none
  | fuel + 1 =>
    match en with
    | [] => some (h, [])
    | (k, e) :: rest =>
      match deepcopyH fuel h e with
      | none => none
      | some (h2, c) =>
        match deepcopyDictH fuel h2 rest with
        | none => none
        | some (h3, cs) => some (h3, (k, c) :: cs)
termination_by fuel

/-- FlowWeave._deep_merge on the heap: result = copy.deepcopy(a), then the
b.items() loop mutates only the fresh result object. -/
def deep_mergeH (fuel : Nat) (h : Heap) (a b : Nat) : Option (Heap × Nat) :=
  match fuel with
  | 0 => none
  | fuel + 1 =>
    match deepcopyH fuel h a with
    | none => none
    | some (h1, r) =>
      match h1[b]? with
      | some (HObj.hdict bents) => merge_loopH fuel h1 r bents
      | _ => none
termination_by fuel

def merge_loopH (fuel : Nat) (h : Heap) (r : Nat) (bents : List (String × Nat)) :
    Option (Heap × Nat) :=
  match fuel with
  | 0 => none
  | fuel + 1 =>
    match bents with
    | [] => some (h, r)
    | (k, vb) :: rest =>
      match h[r]? with
      | some (HObj.hdict rents) =>
        let step : Option Heap :=
          match alist_get rents k with
          | some av =>
            if isDictAt h av && isDictAt h vb then
              match deep_mergeH fuel h av vb with
              | none => none
              | some (h2, m) => some (dictSetAt h2 r k m)
            else if isListAt h av || isListAt h vb then
              match merge_to_listH fuel h av vb with
              | none => none
              | some (h2, m) => some (dictSetAt h2 r k m)
            else
              match deepcopyH fuel h vb with
              | none => none
              | some (h2, c) => some (dictSetAt h2 r k c)
          | none =>
            match deepcopyH fuel h vb with
            | none => none
            | some (h2, c) => some (dictSetAt h2 r k c)
        match step with
        | none => none
        | some h3 => merge_loopH fuel h3 r rest
      | _ => none
termination_by fuel

/-- FlowWeave._merge_to_list on the heap: both operands deep-copied (a
non-list operand wrapped into a freshly allocated one-element list), then
the override items are appended into the fresh result list object. -/
def merge_to_listH (fuel : Nat) (h : Heap) (a b : Nat) : Option (Heap × Nat) :=
  match fuel with
  | 0 => none
  | fuel + 1 =>
    let mkListCopy : Heap → Nat → Option (Heap × Nat) := fun h0 x =>
      if isListAt h0 x then deepcopyH fuel h0 x
      else
        match deepcopyH fuel h0 x with
        | none => none
        | some (h1, c) => some (Heap.alloc h1 (HObj.hlist [c]))
    match mkListCopy h a with
    | none => none
    | some (h1, ra) =>
      match mkListCopy h1 b with
      | none => none
      | some (h2, rb) =>
        match h2[rb]? with
        | some (HObj.hlist bitems) => items_loopH fuel h2 ra bitems
        | _ => none
termination_by fuel

def items_loopH (fuel : Nat) (h : Heap) (ra : Nat) (items : List Nat) :
    Option (Heap × Nat) :=
  match fuel with
  | 0 => none
  | fuel + 1 =>
    match items with
    | [] => some (h, ra)
    | it :: rest =>
      match h[ra]? with
      | some (HObj.hlist res) =>
        if isDictAt h it then
          match firstDictIdxH h res with
          | some (i, em) =>
            match deep_mergeH fuel h em it with
            | none => none
            | some (h2, m) =>
              match h2[ra]? with
              | some (HObj.hlist res2) =>
                items_loopH fuel (h2.set ra (HObj.hlist (res2.set i m))) ra rest
              | _ => none
          | none => items_loopH fuel (h.set ra (HObj.hlist (res ++ [it]))) ra rest
        else
          match pyInH fuel h it res with
          | none => none
          | some true => items_loopH fuel h ra rest
          | some false => items_loopH fuel (h.set ra (HObj.hlist (res ++ [it]))) ra rest
      | _ => none
termination_by fuel
end

/-- Addresses below n read the same in both heaps, and the heap only
grew: nothing that existed before the call was modified. -/
def heap_preserved (n : Nat) (h h2 : Heap) : Prop :=
  h.length ≤ h2.length ∧ ∀ i, i < n → h2[i]? = h[i]?

def CopyPreserves (f : Nat) : Prop :=
  ∀ h a h2 r, deepcopyH f h a = some (h2, r) →
    heap_preserved h.length h h2 ∧ h.length ≤ r ∧ r < h2.length

def CopyListPreserves (f : Nat) : Prop :=
  ∀ h es h2 cs, deepcopyListH f h es = some (h2, cs) →
    heap_preserved h.length h h2

def CopyDictPreserves (f : Nat) : Prop :=
  ∀ h en h2 cs, deepcopyDictH f h en = some (h2, cs) →
    heap_preserved h.length h h2

def MergePreserves (f : Nat) : Prop :=
  ∀ h a b h2 r, deep_mergeH f h a b = some (h2, r) →
    heap_preserved h.length h h2 ∧ h.length ≤ r ∧ r < h2.length

def MergeLoopPreserves (f : Nat) : Prop :=
  ∀ h r bents h2 r2, merge_loopH f h r bents = some (h2, r2) →
    r2 = r ∧ h.length ≤ h2.length ∧
      ∀ n, n ≤ r → n ≤ h.length → ∀ i, i < n → h2[i]? = h[i]?

def MtlPreserves (f : Nat) : Prop :=
  ∀ h a b h2 r, merge_to_listH f h a b = some (h2, r) →
    heap_preserved h.length h h2 ∧ h.length ≤ r ∧ r < h2.length

def ItemsPreserves (f : Nat) : Prop :=
  ∀ h ra items h2 r2, items_loopH f h ra items = some (h2, r2) →
    r2 = ra ∧ h.length ≤ h2.length ∧
      ∀ n, n ≤ ra → n ≤ h.length → ∀ i, i < n → h2[i]? = h[i]?

/-- Modelled from the spec wording of the list-merge policy, for
comparison with the source's merge_to_list: coerce either operand to a
sequence by wrapping a non-sequence value as a one-element sequence. -/
def spec_coerce_list (v : Value) : List Value :=
  if isList v then v.listItems else [v]

/-- Modelled from the spec wording of the list-merge policy: append one
override element to the result — a mapping element is deep-merged into
the first mapping-typed element already present (appended only if no
mapping element exists), any other element is appended only if an equal
value is not already present. -/
def spec_list_insert (res : List Value) (item : Value) : List Value :=
  if isDict item then
    match res.findIdx? isDict with
    | some i =>
      res.set i (Value.dict (deep_merge ((res.getD i (Value.dict [])).dictEntries)
        item.dictEntries))
    | none => res ++ [item]
  else if pyIn item res then res else res ++ [item]

/-- A future outcome that forces stage FAIL: it raised, or it resolved to
a record whose result is FAIL. -/
def outcome_bad (o : Except PyExc TaskRecord) : Prop :=
  (∃ e, o = Except.error e) ∨
    (∃ rec, o = Except.ok rec ∧ rec.result = FlowWeaveResult.FAIL)

def ok_handler : Handler :=
  { constructErr := none, invoke := Except.ok (FlowWeaveResult.SUCCESS, none) }

def fail_handler : Handler :=
  { constructErr := none, invoke := Except.ok (FlowWeaveResult.FAIL, none) }

def test_ops : List (String × Handler) :=
  [("op_ok", ok_handler), ("op_fail", fail_handler)]

def head_task (op : String) (nxt : NextField) : TaskSpec :=
  { op := op, option := [], do_only := none,
    chain := some { part := some "head", next := nxt } }

def link_task (op : String) (nxt : NextField) : TaskSpec :=
  { op := op, option := [], do_only := none,
    chain := some { part := some "link", next := nxt } }

def cycle_stage : StageData :=
  { name := "S1",
    stage_info :=
      [("A", head_task "op_ok" (NextField.one "B")),
       ("B", link_task "op_ok" (NextField.one "A"))],
    default_option := [], global_option := [],
    op_dic := test_ops, flow_part := 1, flow_all := 1 }

def diamond_stage (h1 h2 h3 h4 : Handler) (o1 o2 o3 o4 dOpt gOpt : Dict)
    (d1 d2 d3 d4 : Option String) : StageData :=
  { name := "S1",
    stage_info :=
      [("A", { op := "op1", option := o1, do_only := d1,
               chain := some { part := some "head", next := NextField.many ["B", "C"] } }),
       ("B", { op := "op2", option := o2, do_only := d2,
               chain := some { part := some "link", next := NextField.one "D" } }),
       ("C", { op := "op3", option := o3, do_only := d3,
               chain := some { part := some "link", next := NextField.one "D" } }),
       ("D", { op := "op4", option := o4, do_only := d4,
               chain := some { part := some "link", next := NextField.absent } })],
    default_option := dOpt, global_option := gOpt,
    op_dic := [("op1", h1), ("op2", h2), ("op3", h3), ("op4", h4)],
    flow_part := 1, flow_all := 1 }

def C2_flow : FlowData :=
  { flow := ["S1", "S2"],
    stage := [("S1", cycle_stage.stage_info),
              ("S2", [("T", head_task "op_ok" NextField.absent)])],
    default_option := [], global_option := none }

def C6_skip_flow : FlowData :=
  { flow := ["S1", "S2", "S3"],
    stage := [("S1", [("T1", head_task "op_ok" NextField.absent)]),
              ("S2", [("T2", head_task "op_fail" NextField.absent)]),
              ("S3", [("T3", head_task "op_ok" NextField.absent)])],
    default_option := [], global_option := none }

def C4_prev_fail : TaskRecord :=
  { name := "P", option := [], data := none, result := FlowWeaveResult.FAIL }

def C4_handler : Handler :=
  { constructErr := none, invoke := Except.ok (FlowWeaveResult.SUCCESS, none) }

def C4_td : TaskData :=
  { name := "T", task_class := C4_handler,
    option := [], stage_name := "S", flow_part := 1, flow_all := 1,
    do_only := some "pre_success", show_log := false }

def C3_bad_handler : Handler :=
  { constructErr := some (PyExc.attributeError "no such attribute"),
    invoke := Except.ok (FlowWeaveResult.SUCCESS, none) }

def C3_bad_td : TaskData :=
  { name := "T", task_class := C3_bad_handler,
    option := [], stage_name := "S", flow_part := 1, flow_all := 1,
    do_only := none, show_log := false }

def C3_weird_handler : Handler :=
  { constructErr := some (PyExc.handlerExc "boom"),
    invoke := Except.ok (FlowWeaveResult.SUCCESS, none) }

def C3_weird_td : TaskData :=
  { name := "T", task_class := C3_weird_handler,
    option := [], stage_name := "S", flow_part := 1, flow_all := 1,
    do_only := none, show_log := false }

def C5_ignore_rec : TaskRecord :=
  { name := "T", option := [], data := none, result := FlowWeaveResult.IGNORE }

theorem heap_preserved_refl (n : Nat) (h : Heap) : heap_preserved n h h :=
  ⟨le_refl _, fun _ _ => rfl⟩

theorem heap_preserved_trans {n : Nat} {h1 h2 h3 : Heap}
    (a : heap_preserved n h1 h2) (b : heap_preserved n h2 h3) :
    heap_preserved n h1 h3 :=
  ⟨le_trans a.1 b.1, fun i hi => (b.2 i hi).trans (a.2 i hi)⟩

theorem heap_preserved_mono {n m : Nat} {h h2 : Heap} (hle : m ≤ n)
    (a : heap_preserved n h h2) : heap_preserved m h h2 :=
  ⟨a.1, fun i hi => a.2 i (lt_of_lt_of_le hi hle)⟩

theorem heap_preserved_append (n : Nat) (h : Heap) (o : HObj) (hn : n ≤ h.length) :
    heap_preserved n h (h ++ [o]) := by
  refine ⟨by simp, fun i hi => ?_⟩
  exact List.getElem?_append_left (lt_of_lt_of_le hi hn)

theorem heap_preserved_set (n r : Nat) (h : Heap) (o : HObj) (hn : n ≤ r) :
    heap_preserved n h (h.set r o) := by
  refine ⟨by simp, fun i hi => ?_⟩
  exact List.getElem?_set_ne (by omega)

theorem heap_preserved_dictSetAt (n r : Nat) (h : Heap) (k : String) (v : Nat)
    (hn : n ≤ r) : heap_preserved n h (dictSetAt h r k v) := by
  unfold dictSetAt
  split
  · exact heap_preserved_set n r h _ hn
  · exact heap_preserved_refl n h

theorem length_dictSetAt (h : Heap) (r : Nat) (k : String) (v : Nat) :
    (dictSetAt h r k v).length = h.length := by
  unfold dictSetAt
  split <;> simp

theorem heap_discipline : ∀ f, CopyPreserves f ∧ CopyListPreserves f ∧
    CopyDictPreserves f ∧ MergePreserves f ∧ MergeLoopPreserves f ∧
    MtlPreserves f ∧ ItemsPreserves f := by
  intro f
  induction f with
  | zero =>
    exact ⟨fun h a h2 r heq => by simp [deepcopyH] at heq,
           fun h es h2 cs heq => by simp [deepcopyListH] at heq,
           fun h en h2 cs heq => by simp [deepcopyDictH] at heq,
           fun h a b h2 r heq => by simp [deep_mergeH] at heq,
           fun h r bents h2 r2 heq => by simp [merge_loopH] at heq,
           fun h a b h2 r heq => by simp [merge_to_listH] at heq,
           fun h ra items h2 r2 heq => by simp [items_loopH] at heq⟩
  | succ f ih =>
    obtain ⟨ihc, ihcl, ihcd, ihm, ihml, ihmtl, ihit⟩ := ih
    refine ⟨?_, ?_, ?_, ?_, ?_, ?_, ?_⟩
    · -- deepcopyH
      intro h a h2 r heq
      simp only [deepcopyH] at heq
      split at heq
      · exact absurd heq (by simp)
      · simp only [Heap.alloc, Option.some.injEq, Prod.mk.injEq] at heq
        obtain ⟨rfl, rfl⟩ := heq
        exact ⟨heap_preserved_append _ _ _ le_rfl, le_refl _, by simp⟩
      · simp only [Heap.alloc, Option.some.injEq, Prod.mk.injEq] at heq
        obtain ⟨rfl, rfl⟩ := heq
        exact ⟨heap_preserved_append _ _ _ le_rfl, le_refl _, by simp⟩
      · simp only [Heap.alloc, Option.some.injEq, Prod.mk.injEq] at heq
        obtain ⟨rfl, rfl⟩ := heq
        exact ⟨heap_preserved_append _ _ _ le_rfl, le_refl _, by simp⟩
      · rename_i es haeq
        split at heq
        · exact absurd heq (by simp)
        · rename_i h1 es2 hclEq
          have hp := ihcl h es h1 es2 hclEq
          simp only [Heap.alloc, Option.some.injEq, Prod.mk.injEq] at heq
          obtain ⟨rfl, rfl⟩ := heq
          exact ⟨heap_preserved_trans hp (heap_preserved_append _ _ _ hp.1),
                 hp.1, by simp⟩
      · rename_i en haeq
        split at heq
        · exact absurd heq (by simp)
        · rename_i h1 en2 hcdEq
          have hp := ihcd h en h1 en2 hcdEq
          simp only [Heap.alloc, Option.some.injEq, Prod.mk.injEq] at heq
          obtain ⟨rfl, rfl⟩ := heq
          exact ⟨heap_preserved_trans hp (heap_preserved_append _ _ _ hp.1),
                 hp.1, by simp⟩
    · -- deepcopyListH
      intro h es h2 cs heq
      cases es with
      | nil =>
        simp only [deepcopyListH, Option.some.injEq, Prod.mk.injEq] at heq
        obtain ⟨rfl, rfl⟩ := heq
        exact heap_preserved_refl _ _
      | cons e rest =>
        simp only [deepcopyListH] at heq
        split at heq
        · exact absurd heq (by simp)
        · rename_i h1 c hcEq
          split at heq
          · exact absurd heq (by simp)
          · rename_i h3 cs2 hclEq
            simp only [Option.some.injEq, Prod.mk.injEq] at heq
            obtain ⟨rfl, rfl⟩ := heq
            have hp1 := ihc h e h1 c hcEq
            have hp2 := ihcl h1 rest h3 cs2 hclEq
            exact heap_preserved_trans hp1.1 (heap_preserved_mono hp1.1.1 hp2)
    · -- deepcopyDictH
      intro h en h2 cs heq
      cases en with
      | nil =>
        simp only [deepcopyDictH, Option.some.injEq, Prod.mk.injEq] at heq
        obtain ⟨rfl, rfl⟩ := heq
        exact heap_preserved_refl _ _
      | cons kv rest =>
        obtain ⟨k, e⟩ := kv
        simp only [deepcopyDictH] at heq
        split at heq
        · exact absurd heq (by simp)
        · rename_i h1 c hcEq
          split at heq
          · exact absurd heq (by simp)
          · rename_i h3 cs2 hcdEq
            simp only [Option.some.injEq, Prod.mk.injEq] at heq
            obtain ⟨rfl, rfl⟩ := heq
            have hp1 := ihc h e h1 c hcEq
            have hp2 := ihcd h1 rest h3 cs2 hcdEq
            exact heap_preserved_trans hp1.1 (heap_preserved_mono hp1.1.1 hp2)
    · -- deep_mergeH
      intro h a b h2 r heq
      simp only [deep_mergeH] at heq
      split at heq
      · exact absurd heq (by simp)
      · rename_i h1 r1 hcEq
        split at heq
        · rename_i bents hbEq
          have hp1 := ihc h a h1 r1 hcEq
          obtain ⟨rfl, hlen2, hpres⟩ := ihml h1 r1 bents h2 r heq
          refine ⟨⟨le_trans hp1.1.1 hlen2, fun i hi => ?_⟩,
                  hp1.2.1, lt_of_lt_of_le hp1.2.2 hlen2⟩
          exact (hpres h.length hp1.2.1 hp1.1.1 i hi).trans (hp1.1.2 i hi)
        · exact absurd heq (by simp)
    · -- merge_loopH
      intro h r bents h2 r2 heq
      cases bents with
      | nil =>
        simp only [merge_loopH, Option.some.injEq, Prod.mk.injEq] at heq
        obtain ⟨rfl, rfl⟩ := heq
        exact ⟨rfl, le_refl _, fun n _ _ i _ => rfl⟩
      | cons kv rest =>
        obtain ⟨k, vb⟩ := kv
        simp only [merge_loopH] at heq
        split at heq
        · rename_i rents hrEq
          -- the step match
          split at heq
          · exact absurd heq (by simp)
          · rename_i h3 hstep
            obtain ⟨hr2, hlen2, hpres⟩ := ihml h3 r rest h2 r2 heq
            -- analyse how step produced h3
            split at hstep
            · rename_i av havEq
              split at hstep
              · split at hstep
                · exact absurd hstep (by simp)
                · rename_i h2m m hmEq
                  simp only [Option.some.injEq] at hstep
                  subst hstep
                  have hpm := ihm h av vb h2m m hmEq
                  refine ⟨hr2, ?_, fun n hnr hnh i hi => ?_⟩
                  · calc h.length ≤ h2m.length := hpm.1.1
                      _ = (dictSetAt h2m r k m).length := (length_dictSetAt _ _ _ _).symm
                      _ ≤ h2.length := hlen2
                  · have e1 : h2[i]? = (dictSetAt h2m r k m)[i]? :=
                      hpres n hnr (by rw [length_dictSetAt]; omega) i hi
                    have e2 : (dictSetAt h2m r k m)[i]? = h2m[i]? :=
                      (heap_preserved_dictSetAt n r h2m k m hnr).2 i hi
                    have e3 : h2m[i]? = h[i]? := hpm.1.2 i (by omega)
                    rw [e1, e2, e3]
              · split at hstep
                · split at hstep
                  · exact absurd hstep (by simp)
                  · rename_i h2m m hmEq
                    simp only [Option.some.injEq] at hstep
                    subst hstep
                    have hpm := ihmtl h av vb h2m m hmEq
                    refine ⟨hr2, ?_, fun n hnr hnh i hi => ?_⟩
                    · calc h.length ≤ h2m.length := hpm.1.1
                        _ = (dictSetAt h2m r k m).length := (length_dictSetAt _ _ _ _).symm
                        _ ≤ h2.length := hlen2
                    · have e1 : h2[i]? = (dictSetAt h2m r k m)[i]? :=
                        hpres n hnr (by rw [length_dictSetAt]; omega) i hi
                      have e2 : (dictSetAt h2m r k m)[i]? = h2m[i]? :=
                        (heap_preserved_dictSetAt n r h2m k m hnr).2 i hi
                      have e3 : h2m[i]? = h[i]? := hpm.1.2 i (by omega)
                      rw [e1, e2, e3]
                · split at hstep
                  · exact absurd hstep (by simp)
                  · rename_i h2m m hmEq
                    simp only [Option.some.injEq] at hstep
                    subst hstep
                    have hpm := ihc h vb h2m m hmEq
                    refine ⟨hr2, ?_, fun n hnr hnh i hi => ?_⟩
                    · calc h.length ≤ h2m.length := hpm.1.1
                        _ = (dictSetAt h2m r k m).length := (length_dictSetAt _ _ _ _).symm
                        _ ≤ h2.length := hlen2
                    · have e1 : h2[i]? = (dictSetAt h2m r k m)[i]? :=
                        hpres n hnr (by rw [length_dictSetAt]; omega) i hi
                      have e2 : (dictSetAt h2m r k m)[i]? = h2m[i]? :=
                        (heap_preserved_dictSetAt n r h2m k m hnr).2 i hi
                      have e3 : h2m[i]? = h[i]? := hpm.1.2 i (by omega)
                      rw [e1, e2, e3]
            · split at hstep
              · exact absurd hstep (by simp)
              · rename_i h2m m hmEq
                simp only [Option.some.injEq] at hstep
                subst hstep
                have hpm := ihc h vb h2m m hmEq
                refine ⟨hr2, ?_, fun n hnr hnh i hi => ?_⟩
                · calc h.length ≤ h2m.length := hpm.1.1
                    _ = (dictSetAt h2m r k m).length := (length_dictSetAt _ _ _ _).symm
                    _ ≤ h2.length := hlen2
                · have e1 : h2[i]? = (dictSetAt h2m r k m)[i]? :=
                    hpres n hnr (by rw [length_dictSetAt]; omega) i hi
                  have e2 : (dictSetAt h2m r k m)[i]? = h2m[i]? :=
                    (heap_preserved_dictSetAt n r h2m k m hnr).2 i hi
                  have e3 : h2m[i]? = h[i]? := hpm.1.2 i (by omega)
                  rw [e1, e2, e3]
        · exact absurd heq (by simp)
    · -- merge_to_listH
      intro h a b h2 r heq
      rw [merge_to_listH.eq_def] at heq
      simp only [] at heq
      split at heq
      · exact absurd heq (by simp)
      · rename_i h1 ra hmkA
        have hpa : heap_preserved h.length h h1 ∧ h.length ≤ ra ∧ ra < h1.length := by
          split at hmkA
          · exact ihc h a h1 ra hmkA
          · split at hmkA
            · exact absurd hmkA (by simp)
            · rename_i h1a ca hcEq
              have hp := ihc h a h1a ca hcEq
              simp only [Heap.alloc, Option.some.injEq, Prod.mk.injEq] at hmkA
              obtain ⟨rfl, rfl⟩ := hmkA
              exact ⟨heap_preserved_trans hp.1 (heap_preserved_append _ _ _ hp.1.1),
                     hp.1.1, by simp⟩
        split at heq
        · exact absurd heq (by simp)
        · rename_i h2b rb hmkB
          have hpb : heap_preserved h1.length h1 h2b ∧ h1.length ≤ rb ∧ rb < h2b.length := by
            split at hmkB
            · exact ihc h1 b h2b rb hmkB
            · split at hmkB
              · exact absurd hmkB (by simp)
              · rename_i h1b cb hcEq
                have hp := ihc h1 b h1b cb hcEq
                simp only [Heap.alloc, Option.some.injEq, Prod.mk.injEq] at hmkB
                obtain ⟨rfl, rfl⟩ := hmkB
                exact ⟨heap_preserved_trans hp.1 (heap_preserved_append _ _ _ hp.1.1),
                       hp.1.1, by simp⟩
          split at heq
          · rename_i bitems hbEq
            obtain ⟨hr, hlen2, hpres⟩ := ihit h2b ra bitems h2 r heq
            have hra1 : h.length ≤ ra := hpa.2.1
            have hra2 : ra < h1.length := hpa.2.2
            refine ⟨⟨?_, fun i hi => ?_⟩, ?_, ?_⟩
            · exact le_trans hpa.1.1 (le_trans hpb.1.1 hlen2)
            · have e1 : h2[i]? = h2b[i]? :=
                hpres h.length hra1 (le_trans hpa.1.1 hpb.1.1) i hi
              have e2 : h2b[i]? = h1[i]? := hpb.1.2 i (lt_of_lt_of_le hi hpa.1.1)
              have e3 : h1[i]? = h[i]? := hpa.1.2 i hi
              rw [e1, e2, e3]
            · omega
            · have : ra < h2b.length := lt_of_lt_of_le hra2 hpb.1.1
              omega
          · exact absurd heq (by simp)
    · -- items_loopH
      intro h ra items h2 r2 heq
      cases items with
      | nil =>
        simp only [items_loopH, Option.some.injEq, Prod.mk.injEq] at heq
        obtain ⟨rfl, rfl⟩ := heq
        exact ⟨rfl, le_refl _, fun n _ _ i _ => rfl⟩
      | cons it rest =>
        simp only [items_loopH] at heq
        split at heq
        · rename_i res hraEq
          split at heq
          · split at heq
            · rename_i i em hfd
              split at heq
              · exact absurd heq (by simp)
              · rename_i h2m m hmEq
                split at heq
                · rename_i res2 hraEq2
                  obtain ⟨hr2, hlen2, hpres⟩ := ihit _ ra rest h2 r2 heq
                  have hpm := ihm h em it h2m m hmEq
                  rw [List.length_set] at hlen2
                  refine ⟨hr2, le_trans hpm.1.1 hlen2, fun n hnr hnh i2 hi => ?_⟩
                  · have e1 : h2[i2]? = ((h2m.set ra (HObj.hlist (res2.set i m))))[i2]? :=
                      hpres n hnr (by rw [List.length_set]; exact le_trans hnh hpm.1.1) i2 hi
                    have e2 : ((h2m.set ra (HObj.hlist (res2.set i m))))[i2]? = h2m[i2]? :=
                      List.getElem?_set_ne (by omega)
                    have e3 : h2m[i2]? = h[i2]? := hpm.1.2 i2 (by omega)
                    rw [e1, e2, e3]
                · exact absurd heq (by simp)
            · obtain ⟨hr2, hlen2, hpres⟩ := ihit _ ra rest h2 r2 heq
              rw [List.length_set] at hlen2
              refine ⟨hr2, hlen2, fun n hnr hnh i2 hi => ?_⟩
              have e1 : h2[i2]? = ((h.set ra (HObj.hlist (res ++ [it]))))[i2]? :=
                hpres n hnr (by rw [List.length_set]; exact hnh) i2 hi
              have e2 : ((h.set ra (HObj.hlist (res ++ [it]))))[i2]? = h[i2]? :=
                List.getElem?_set_ne (by omega)
              rw [e1, e2]
          · split at heq
            · exact absurd heq (by simp)
            · exact ihit h ra rest h2 r2 heq
            · obtain ⟨hr2, hlen2, hpres⟩ := ihit _ ra rest h2 r2 heq
              rw [List.length_set] at hlen2
              refine ⟨hr2, hlen2, fun n hnr hnh i2 hi => ?_⟩
              have e1 : h2[i2]? = ((h.set ra (HObj.hlist (res ++ [it]))))[i2]? :=
                hpres n hnr (by rw [List.length_set]; exact hnh) i2 hi
              have e2 : ((h.set ra (HObj.hlist (res ++ [it]))))[i2]? = h[i2]? :=
                List.getElem?_set_ne (by omega)
              rw [e1, e2]
        · exact absurd heq (by simp)

theorem await_foldl_spec (l : List (Except PyExc TaskRecord)) :
    ∀ acc, (l.foldl await_step acc = FlowWeaveResult.FAIL ↔
        acc = FlowWeaveResult.FAIL ∨ ∃ o ∈ l, outcome_bad o)
      ∧ (l.foldl await_step acc = FlowWeaveResult.FAIL ∨ l.foldl await_step acc = acc) := by
  induction l with
  | nil => intro acc; simp
  | cons o rest ih =>
    intro acc
    have hstep : await_step acc o = FlowWeaveResult.FAIL ↔
        acc = FlowWeaveResult.FAIL ∨ outcome_bad o := by
      cases o with
      | ok rec =>
        by_cases hr : rec.result = FlowWeaveResult.FAIL <;>
          simp [await_step, outcome_bad, hr]
      | error e => simp [await_step, outcome_bad]
    have hkeep : await_step acc o = FlowWeaveResult.FAIL ∨ await_step acc o = acc := by
      cases o with
      | ok rec =>
        by_cases hr : rec.result = FlowWeaveResult.FAIL <;> simp [await_step, hr]
      | error e => simp [await_step]
    constructor
    · rw [List.foldl_cons, (ih (await_step acc o)).1, hstep]
      constructor
      · rintro ((h | h) | ⟨o2, ho2, hbad⟩)
        · exact Or.inl h
        · exact Or.inr ⟨o, by simp, h⟩
        · exact Or.inr ⟨o2, by simp [ho2], hbad⟩
      · rintro (h | ⟨o2, ho2, hbad⟩)
        · exact Or.inl (Or.inl h)
        · rcases List.mem_cons.mp ho2 with rfl | h2
          · exact Or.inl (Or.inr hbad)
          · exact Or.inr ⟨o2, h2, hbad⟩
    · rw [List.foldl_cons]
      rcases (ih (await_step acc o)).2 with h | h
      · exact Or.inl h
      · rw [h]
        exact hkeep

theorem all_ignored_getElem (l : List StageEvent)
    (hall : ∀ e ∈ l, ∃ s, e = StageEvent.ignored s) (j : Nat) (hj : j < l.length) :
    ∃ s2, l[j]? = some (StageEvent.ignored s2) := by
  have h1 : l[j]? = some l[j] := List.getElem?_eq_getElem hj
  obtain ⟨s2, hs2⟩ := hall l[j] (List.getElem_mem hj)
  exact ⟨s2, by rw [h1, hs2]⟩

theorem flow_loop_spec (fuel : Nat) (fd : FlowData) (gc : List (String × Dict))
    (opd : List (String × Handler)) (part all : Nat) :
    ∀ (stages : List String) (acc : FlowWeaveResult) (ev : List StageEvent)
      (r : FlowWeaveResult),
      flow_loop fuel fd gc opd part all stages acc = (ev, Except.ok r) →
      (ev.map StageEvent.stageName = stages)
    ∧ (r = FlowWeaveResult.FAIL ↔
        (acc = FlowWeaveResult.FAIL ∨
          ∃ s, StageEvent.ran s FlowWeaveResult.FAIL ∈ ev))
    ∧ (acc = FlowWeaveResult.FAIL → ∀ e ∈ ev, ∃ s, e = StageEvent.ignored s)
    ∧ (∀ i j s, i < j → j < ev.length →
        ev[i]? = some (StageEvent.ran s FlowWeaveResult.FAIL) →
        ∃ s2, ev[j]? = some (StageEvent.ignored s2))
    ∧ (r = FlowWeaveResult.FAIL ∨ r = acc) := by
  intro stages
  induction stages with
  | nil =>
    intro acc ev r heq
    simp only [flow_loop, Prod.mk.injEq, Except.ok.injEq] at heq
    obtain ⟨rfl, rfl⟩ := heq
    refine ⟨rfl, by simp, by simp, by simp, Or.inr rfl⟩
  | cons s rest ih =>
    intro acc ev r heq
    simp only [flow_loop] at heq
    by_cases hacc : acc = FlowWeaveResult.FAIL
    · rw [if_pos hacc] at heq
      simp only [Prod.mk.injEq] at heq
      obtain ⟨hev, hr⟩ := heq
      subst hev
      obtain ⟨ih1, ih2, ih3, ih4, ih5⟩ :=
        ih acc (flow_loop fuel fd gc opd part all rest acc).1 r
          (by rw [← hr])
      refine ⟨by simp [ih1, StageEvent.stageName], ?_, ?_, ?_, ?_⟩
      · rw [ih2]
        simp [hacc]
      · intro _ e he
        rcases List.mem_cons.mp he with rfl | h2
        · exact ⟨s, rfl⟩
        · exact ih3 hacc e h2
      · intro i j s2 hij hj hran
        cases j with
        | zero => omega
        | succ j2 =>
          simp only [List.getElem?_cons_succ]
          exact all_ignored_getElem _ (ih3 hacc) j2 (by simp at hj; omega)
      · rcases ih5 with h | h
        · exact Or.inl h
        · exact Or.inl (h.trans hacc)
    · rw [if_neg hacc] at heq
      split at heq
      · simp at heq
      · rename_i si hsi
        split at heq
        · simp at heq
        · rename_i result hrs
          simp only [Prod.mk.injEq] at heq
          obtain ⟨hev, hr⟩ := heq
          subst hev
          set acc2 := if result = FlowWeaveResult.FAIL then FlowWeaveResult.FAIL else acc
            with hacc2
          obtain ⟨ih1, ih2, ih3, ih4, ih5⟩ :=
            ih acc2 (flow_loop fuel fd gc opd part all rest acc2).1 r
              (by rw [← hr])
          by_cases hres : result = FlowWeaveResult.FAIL
          · have hacc2f : acc2 = FlowWeaveResult.FAIL := by simp [hacc2, hres]
            refine ⟨by simp [ih1, StageEvent.stageName], ?_, ?_, ?_, ?_⟩
            · rw [ih2]
              subst hres
              simp [hacc2f]
            · intro h
              exact absurd h hacc
            · intro i j s2 hij hj hran
              cases j with
              | zero => omega
              | succ j2 =>
                simp only [List.getElem?_cons_succ]
                exact all_ignored_getElem _ (ih3 hacc2f) j2 (by simp at hj; omega)
            · rw [ih2]
              subst hres
              exact Or.inl (Or.inl hacc2f)
          · have hacc2a : acc2 = acc := by simp [hacc2, hres]
            rw [hacc2a] at ih1 ih2 ih3 ih4 ih5 ⊢
            refine ⟨by simp [ih1, StageEvent.stageName], ?_, ?_, ?_, ?_⟩
            · rw [ih2]
              constructor
              · rintro (h | h)
                · exact Or.inl h
                · exact Or.inr (by
                    obtain ⟨s3, hs3⟩ := h
                    exact ⟨s3, List.mem_cons_of_mem _ hs3⟩)
              · rintro (h | ⟨s3, hs3⟩)
                · exact Or.inl h
                · rcases List.mem_cons.mp hs3 with heq2 | h3
                  · exact absurd (by injection heq2 with h1 h2; exact h2.symm) hres
                  · exact Or.inr ⟨s3, h3⟩
            · intro h
              exact absurd h hacc
            · intro i j s2 hij hj hran
              cases i with
              | zero =>
                simp only [List.getElem?_cons_zero, Option.some.injEq] at hran
                exact absurd (by injection hran.symm with h1 h2; exact h2.symm) hres
              | succ i2 =>
                cases j with
                | zero => omega
                | succ j2 =>
                  simp only [List.getElem?_cons_succ] at hran ⊢
                  exact ih4 i2 j2 s2 (by omega) (by simp at hj; omega) hran
            · exact ih5

theorem list_product_length {α : Type} (ls : List (List α)) :
    (list_product ls).length = (ls.map List.length).prod := by
  induction ls with
  | nil => simp [list_product]
  | cons l ls ih =>
    have hsum : ∀ (l2 : List α) (c : Nat), (l2.map (fun _ => c)).sum = l2.length * c := by
      intro l2 c
      induction l2 with
      | nil => simp
      | cons x xs ih2 => simp [ih2]; ring
    simp only [list_product, List.length_flatMap, List.map_map, Function.comp_def,
               List.length_map, hsum, List.map_cons, List.prod_cons, ih]

theorem firstDictIdx_none (res : List Value) :
    firstDictIdx res = none ↔ res.findIdx? isDict = none := by
  induction res with
  | nil => simp [firstDictIdx]
  | cons x rest ih =>
    by_cases hx : isDict x
    · obtain ⟨em2, rfl⟩ : ∃ em2, x = Value.dict em2 := by
        cases x <;> simp [isDict] at hx
        exact ⟨_, rfl⟩
      simp [firstDictIdx, List.findIdx?_cons, isDict]
    · have hfd : firstDictIdx (x :: rest)
          = (firstDictIdx rest).map (fun q => (q.1 + 1, q.2)) := by
        cases x <;> simp_all [firstDictIdx, isDict]
      rw [hfd, List.findIdx?_cons]
      simp [hx, ih]

theorem firstDictIdx_some (res : List Value) :
    ∀ p, firstDictIdx res = some p →
      res.findIdx? isDict = some p.1 ∧ res.getD p.1 (Value.dict []) = Value.dict p.2 := by
  induction res with
  | nil => intro p h; simp [firstDictIdx] at h
  | cons x rest ih =>
    intro p h
    by_cases hx : isDict x
    · obtain ⟨em2, rfl⟩ : ∃ em2, x = Value.dict em2 := by
        cases x <;> simp [isDict] at hx
        exact ⟨_, rfl⟩
      simp only [firstDictIdx, Option.some.injEq] at h
      subst h
      simp [List.findIdx?_cons, isDict]
    · have hfd : firstDictIdx (x :: rest)
          = (firstDictIdx rest).map (fun q => (q.1 + 1, q.2)) := by
        cases x <;> simp_all [firstDictIdx, isDict]
      rw [hfd] at h
      cases hrec : firstDictIdx rest with
      | none => rw [hrec] at h; simp at h
      | some q =>
        rw [hrec] at h
        simp only [Option.map_some', Option.some.injEq] at h
        subst h
        obtain ⟨h1, h2⟩ := ih q hrec
        constructor
        · rw [List.findIdx?_cons]
          simp [hx, h1]
        · simpa using h2

theorem itemsLoop_foldl (items : List Value) :
    ∀ res, itemsLoop res items = items.foldl spec_list_insert res := by
  induction items with
  | nil => intro res; simp [itemsLoop]
  | cons item rest ih =>
    intro res
    rw [itemsLoop]
    rw [List.foldl_cons, ih]
    congr 1
    by_cases hd : isDict item
    · simp only [hd, if_pos, spec_list_insert]
      cases hfd : firstDictIdx res with
      | none =>
        rw [(firstDictIdx_none res).mp hfd]
      | some p =>
        obtain ⟨i, em⟩ := p
        obtain ⟨hidx, hget⟩ := firstDictIdx_some res (i, em) hfd
        rw [hidx]
        simp only [hget, Value.dictEntries]
    · simp [spec_list_insert, hd]

/-- Counterexample to C1 as stated: in the stage A -> B -> A, the
traversal has already submitted both A and B to the pool when the cycle
is detected on re-reaching A — the cycle error is not raised before any
task on the path is dispatched. -/
theorem C1_counterexample :
    (run_stage_build 10 cycle_stage).1.map (fun s => (s.task_data.name, s.prev))
      = [("A", none), ("B", some 0)]
  ∧ (run_stage_build 10 cycle_stage).2 = Except.error (PyExc.cycleError "A") := by
  constructor <;>
    simp [run_stage_build, heads_loop, run_task, run_links, chain_part, chain_links,
          alist_get, cycle_stage, head_task, link_task, ok_handler, test_ops]

/-- C1 amended: the cycle check fires before the repeated task is
submitted again — a traversal entered on a task already on the current
path returns the cycle error with the submission log unchanged (tasks
earlier on the path have however already been dispatched, see the
counterexample) — and an acyclic diamond A -> B, A -> C, B -> D, C -> D
completes without a cycle error whatever the handlers, options and
gating modes involved. -/
theorem C1_cycle_and_diamond :
    (∀ fuel sd task_name prev_future visited log, task_name ∈ visited →
        run_task fuel sd task_name prev_future visited log
          = (log, Except.error (PyExc.cycleError task_name)))
  ∧ (∀ h1 h2 h3 h4 o1 o2 o3 o4 dOpt gOpt d1 d2 d3 d4,
      (run_stage_build 10 (diamond_stage h1 h2 h3 h4 o1 o2 o3 o4 dOpt gOpt d1 d2 d3 d4)).2
        = Except.ok [0, 1, 2, 3, 4]) := by
  constructor
  · intro fuel sd task_name prev_future visited log hmem
    rw [run_task.eq_def]
    simp [hmem]
  · intro h1 h2 h3 h4 o1 o2 o3 o4 dOpt gOpt d1 d2 d3 d4
    simp [run_stage_build, heads_loop, run_task, run_links, chain_part, chain_links,
          alist_get, diamond_stage]

/-- Witness for C1_cycle_and_diamond: the cycle check at a concrete task
already on the path leaves the log unchanged. -/
theorem C1_witness :
    ("A" ∈ ["B", "A"]) ∧
    run_task 5 cycle_stage "A" none ["B", "A"] []
      = ([], Except.error (PyExc.cycleError "A")) :=
  ⟨by simp, C1_cycle_and_diamond.1 5 cycle_stage "A" none ["B", "A"] [] (by simp)⟩

/-- Counterexample to C2 as stated: the cycle error in stage S1 does not
abort only that stage's dispatch — run_flow ends in the exception with no
stage events at all (S2 is never executed nor reported), and the
sequential run returns the exception instead of a list of flow results. -/
theorem C2_counterexample :
    run_flow 10 C2_flow [] test_ops 1 1 = ([], Except.error (PyExc.cycleError "A"))
  ∧ run_seq 10 C2_flow test_ops = Except.error (PyExc.cycleError "A") := by
  constructor <;>
    simp [run_seq, get_comb_list, run_combs, run_flow, flow_loop, run_stage,
          run_stage_build, heads_loop, run_task, run_links, chain_part, chain_links,
          alist_get, C2_flow, cycle_stage, head_task, link_task, ok_handler,
          test_ops, get_stage_global_option]

/-- C2 amended: a cycle error aborts the affected stage's dispatch before
the repeated task is submitted, but it is fatal: the exception propagates
uncaught from _run_stage through run_flow to run, so the remaining stages
of the flow and the remaining combinations of the run never execute. -/
theorem C2_cycle_error_fatal :
    (∀ fuel sd log e, run_stage_build fuel sd = (log, Except.error e) →
        run_stage fuel sd = Except.error e)
  ∧ (∀ fuel fd gc opd part all s rest si e, alist_get fd.stage s = some si →
      run_stage fuel
          { name := s, stage_info := si, default_option := fd.default_option,
            global_option := get_stage_global_option gc s,
            op_dic := opd, flow_part := part, flow_all := all }
        = Except.error e →
      flow_loop fuel fd gc opd part all (s :: rest) FlowWeaveResult.SUCCESS
        = ([], Except.error e))
  ∧ (∀ fuel fd opd comb rest part all e,
      (run_flow fuel fd comb opd part all).2 = Except.error e →
      run_combs fuel fd opd (comb :: rest) part all = Except.error e) := by
  refine ⟨?_, ?_, ?_⟩
  · intro fuel sd log e hbuild
    simp [run_stage, hbuild]
  · intro fuel fd gc opd part all s rest si e hsi hstage
    simp [flow_loop, hsi, hstage]
  · intro fuel fd opd comb rest part all e hflow
    simp [run_combs, hflow]

/-- Witness for C2_cycle_error_fatal: with two combinations and a cycle
in the first flow's stage S1, the run aborts with the exception and the
second combination never runs. -/
theorem C2_witness :
    (run_flow 10 C2_flow [] test_ops 1 2).2 = Except.error (PyExc.cycleError "A")
  ∧ run_combs 10 C2_flow test_ops [[], []] 1 2 = Except.error (PyExc.cycleError "A") := by
  have hflow : (run_flow 10 C2_flow [] test_ops 1 2).2
      = Except.error (PyExc.cycleError "A") := by
    simp [run_flow, flow_loop, run_stage, run_stage_build, heads_loop, run_task,
          run_links, chain_part, chain_links, alist_get, C2_flow, cycle_stage,
          head_task, link_task, ok_handler, test_ops, get_stage_global_option]
  exact ⟨hflow, C2_cycle_error_fatal.2.2 10 C2_flow test_ops [] [[]] 1 2
    (PyExc.cycleError "A") hflow⟩

/-- Counterexample to C3 as stated: when constructing the handler raises
an AttributeError, TaskRunner.start raises a TypeError instead of
returning a FAIL record — the exception escapes the Task Runner. -/
theorem C3_counterexample :
    TaskRunner.start none C3_bad_td = Except.error (PyExc.typeError "Failed to get instance")
  ∧ ¬ ∃ rec, TaskRunner.start none C3_bad_td = Except.ok rec := by
  constructor
  · simp [TaskRunner.start, C3_bad_td, C3_bad_handler]
  · simp [TaskRunner.start, C3_bad_td, C3_bad_handler]

/-- C3 amended: once the handler instance is constructed without raising,
TaskRunner.start always returns a record, and an exception raised while
invoking the handler is converted into a FAIL record with data None;
an exception raised while constructing the handler propagates out of
start, an AttributeError being converted to a TypeError. -/
theorem C3_boundary (prev : Option TaskRecord) (td : TaskData) :
    (td.task_class.constructErr = none → ∃ rec, TaskRunner.start prev td = Except.ok rec)
  ∧ (td.task_class.constructErr = none →
      run_task_flag prev td.do_only = true →
      ∀ e, td.task_class.invoke = Except.error e →
        TaskRunner.start prev td =
          Except.ok { name := td.name, option := td.option, data := none,
                      result := FlowWeaveResult.FAIL })
  ∧ (∀ msg, td.task_class.constructErr = some (PyExc.attributeError msg) →
      TaskRunner.start prev td = Except.error (PyExc.typeError "Failed to get instance"))
  ∧ (∀ e, td.task_class.constructErr = some e → (∀ msg, e ≠ PyExc.attributeError msg) →
      TaskRunner.start prev td = Except.error e) := by
  refine ⟨?_, ?_, ?_, ?_⟩
  · intro hc
    by_cases hflag : run_task_flag prev td.do_only
    · match hinv : td.task_class.invoke with
      | Except.ok (res, d) =>
        exact ⟨{ name := td.name, option := td.option, data := d, result := res },
               by simp [TaskRunner.start, hc, hflag, hinv]⟩
      | Except.error e =>
        exact ⟨{ name := td.name, option := td.option, data := none,
                 result := FlowWeaveResult.FAIL },
               by simp [TaskRunner.start, hc, hflag, hinv]⟩
    · exact ⟨{ name := td.name, option := td.option, data := none,
               result := FlowWeaveResult.IGNORE },
             by simp [TaskRunner.start, hc, hflag]⟩
  · intro hc hflag e hinv
    simp [TaskRunner.start, hc, hflag, hinv]
  · intro msg hc
    simp [TaskRunner.start, hc]
  · intro e hc hne
    cases e <;> simp [TaskRunner.start, hc]
    exact absurd rfl (hne _)

/-- Witness for C3_boundary at concrete inputs: a constructor raising a
non-AttributeError exception propagates it unchanged. -/
theorem C3_witness :
    C3_weird_td.task_class.constructErr = some (PyExc.handlerExc "boom") ∧
    (∀ msg, PyExc.handlerExc "boom" ≠ PyExc.attributeError msg) ∧
    TaskRunner.start none C3_weird_td = Except.error (PyExc.handlerExc "boom") :=
  ⟨by simp [C3_weird_td, C3_weird_handler], by simp,
   (C3_boundary none C3_weird_td).2.2.2 (PyExc.handlerExc "boom")
     (by simp [C3_weird_td, C3_weird_handler]) (by simp)⟩

/-! ## Claim theorems -/
/-- C4: with a predecessor record present, gating mode "pre_success" runs
the handler iff the predecessor result is SUCCESS, "pre_fail" iff it is
FAIL, unset gating always runs; a gated-off task yields an IGNORE record
with data None and the handler's invocation behaviour cannot influence
the outcome; with no predecessor the handler runs whatever the mode. -/
theorem C4_gating (prev_result : Option TaskRecord) (task_data : TaskData)
    (hc : task_data.task_class.constructErr = none) :
    (∀ p, prev_result = some p → task_data.do_only = some "pre_success" →
        (run_task_flag prev_result task_data.do_only = true ↔
          p.result = FlowWeaveResult.SUCCESS))
  ∧ (∀ p, prev_result = some p → task_data.do_only = some "pre_fail" →
        (run_task_flag prev_result task_data.do_only = true ↔
          p.result = FlowWeaveResult.FAIL))
  ∧ (task_data.do_only = none → run_task_flag prev_result task_data.do_only = true)
  ∧ (prev_result = none → run_task_flag prev_result task_data.do_only = true)
  ∧ (run_task_flag prev_result task_data.do_only = false →
      TaskRunner.start prev_result task_data =
        Except.ok { name := task_data.name, option := task_data.option,
                    data := none, result := FlowWeaveResult.IGNORE }
      ∧ ∀ iv, TaskRunner.start prev_result
          { task_data with task_class := { constructErr := none, invoke := iv } } =
          TaskRunner.start prev_result task_data)
  ∧ (run_task_flag prev_result task_data.do_only = true →
      ∀ res d, task_data.task_class.invoke = Except.ok (res, d) →
        TaskRunner.start prev_result task_data =
          Except.ok { name := task_data.name, option := task_data.option,
                      data := d, result := res }) := by
  refine ⟨?_, ?_, ?_, ?_, ?_, ?_⟩
  · rintro p rfl hmode
    simp [run_task_flag, hmode]
  · rintro p rfl hmode
    simp [run_task_flag, hmode]
  · intro hmode
    cases prev_result <;> simp [run_task_flag, hmode]
  · rintro rfl
    simp [run_task_flag]
  · intro hflag
    constructor
    · simp [TaskRunner.start, hc, hflag]
    · intro iv
      simp [TaskRunner.start, hc, hflag]
  · intro hflag res d hinv
    simp [TaskRunner.start, hc, hflag, hinv]

/-- Witness for C4 at a concrete gated-off task: predecessor FAIL under
"pre_success" gives an IGNORE record. -/
theorem C4_witness :
    C4_td.task_class.constructErr = none ∧
    (run_task_flag (some C4_prev_fail) C4_td.do_only = false →
      TaskRunner.start (some C4_prev_fail) C4_td =
        Except.ok { name := C4_td.name, option := C4_td.option,
                    data := none, result := FlowWeaveResult.IGNORE }
      ∧ ∀ iv, TaskRunner.start (some C4_prev_fail)
          { C4_td with task_class := { constructErr := none, invoke := iv } } =
          TaskRunner.start (some C4_prev_fail) C4_td) ∧
    run_task_flag (some C4_prev_fail) C4_td.do_only = false :=
  ⟨by simp [C4_td, C4_handler],
   (C4_gating (some C4_prev_fail) C4_td (by simp [C4_td, C4_handler])).2.2.2.2.1, by
    simp [run_task_flag, C4_td, C4_prev_fail]⟩

/-- C5: a stage's result is FAIL iff at least one dispatched future
resolved to a FAIL record or raised when awaited (awaiting exceptions are
converted to stage FAIL, not propagated); otherwise it is SUCCESS, and in
particular IGNORE records never make the stage FAIL.  The third conjunct
ties the await loop to run_stage: whenever the submission phase finishes
without an exception, the stage result is exactly the await loop's fold
over the awaited futures' outcomes. -/
theorem C5_stage_fail_iff (outcomes : List (Except PyExc TaskRecord)) :
    (await_futures outcomes = FlowWeaveResult.FAIL ↔ ∃ o ∈ outcomes, outcome_bad o)
  ∧ (await_futures outcomes = FlowWeaveResult.FAIL ∨
      await_futures outcomes = FlowWeaveResult.SUCCESS)
  ∧ ((∀ o ∈ outcomes, ¬ outcome_bad o) →
      await_futures outcomes = FlowWeaveResult.SUCCESS)
  ∧ (∀ fuel sd log futures, run_stage_build fuel sd = (log, Except.ok futures) →
      run_stage fuel sd = Except.ok (await_futures
        (futures.map (fun i => (resolve_log log).getD i (Except.error PyExc.fuelExhausted))))) := by
  refine ⟨?_, ?_, ?_, ?_⟩
  · show outcomes.foldl await_step FlowWeaveResult.SUCCESS = _ ↔ _
    rw [(await_foldl_spec outcomes FlowWeaveResult.SUCCESS).1]
    simp
  · exact (await_foldl_spec outcomes FlowWeaveResult.SUCCESS).2
  · intro hall
    rcases (await_foldl_spec outcomes FlowWeaveResult.SUCCESS).2 with h | h
    · exfalso
      have h2 := (await_foldl_spec outcomes FlowWeaveResult.SUCCESS).1.mp h
      rcases h2 with h2 | ⟨o, ho, hbad⟩
      · exact absurd h2 (by simp)
      · exact hall o ho hbad
    · exact h
  · intro fuel sd log futures hbuild
    simp [run_stage, hbuild]

/-- Witness for C5: a stage whose only outcome is an IGNORE record is
SUCCESS. -/
theorem C5_witness :
    (∀ o ∈ [Except.ok C5_ignore_rec], ¬ outcome_bad o) ∧
    await_futures [Except.ok C5_ignore_rec] = FlowWeaveResult.SUCCESS :=
  ⟨by simp [outcome_bad, C5_ignore_rec],
   (C5_stage_fail_iff [Except.ok C5_ignore_rec]).2.2.1
     (by simp [outcome_bad, C5_ignore_rec])⟩

/-- C6: stages run in declared order; once a stage FAILs, every later
stage is reported ignored and not executed, the flow result is FAIL, and
it is FAIL exactly when some executed stage FAILed; without a failing
stage the flow result is SUCCESS. -/
theorem C6_flow_sequence (fuel : Nat) (fd : FlowData) (gc : List (String × Dict))
    (opd : List (String × Handler)) (part all : Nat) (ev : List StageEvent)
    (r : FlowWeaveResult)
    (h : run_flow fuel fd gc opd part all = (ev, Except.ok r)) :
    (ev.map StageEvent.stageName = fd.flow)
  ∧ (r = FlowWeaveResult.FAIL ↔ ∃ s, StageEvent.ran s FlowWeaveResult.FAIL ∈ ev)
  ∧ (∀ i j s, i < j → j < ev.length →
      ev[i]? = some (StageEvent.ran s FlowWeaveResult.FAIL) →
      ∃ s2, ev[j]? = some (StageEvent.ignored s2))
  ∧ (r = FlowWeaveResult.FAIL ∨ r = FlowWeaveResult.SUCCESS) := by
  simp only [run_flow] at h
  obtain ⟨h1, h2, h3, h4, h5⟩ :=
    flow_loop_spec fuel fd gc opd part all fd.flow FlowWeaveResult.SUCCESS ev r h
  refine ⟨h1, ?_, h4, ?_⟩
  · rw [h2]
    simp
  · rcases h5 with h6 | h6
    · exact Or.inl h6
    · exact Or.inr h6

/-- Witness for C6: a three-stage flow whose second stage FAILs reports
the third stage ignored and the flow result FAIL. -/
theorem C6_witness :
    run_flow 10 C6_skip_flow [] test_ops 1 1
      = ([StageEvent.ran "S1" FlowWeaveResult.SUCCESS,
          StageEvent.ran "S2" FlowWeaveResult.FAIL,
          StageEvent.ignored "S3"], Except.ok FlowWeaveResult.FAIL)
  ∧ (FlowWeaveResult.FAIL = FlowWeaveResult.FAIL ↔
      ∃ s, StageEvent.ran s FlowWeaveResult.FAIL ∈
        [StageEvent.ran "S1" FlowWeaveResult.SUCCESS,
         StageEvent.ran "S2" FlowWeaveResult.FAIL,
         StageEvent.ignored "S3"]) := by
  have hrun : run_flow 10 C6_skip_flow [] test_ops 1 1
      = ([StageEvent.ran "S1" FlowWeaveResult.SUCCESS,
          StageEvent.ran "S2" FlowWeaveResult.FAIL,
          StageEvent.ignored "S3"], Except.ok FlowWeaveResult.FAIL) := by
    simp [run_flow, flow_loop, run_stage, run_stage_build, heads_loop, run_task,
          run_links, chain_part, chain_links, alist_get, C6_skip_flow, head_task,
          ok_handler, fail_handler, test_ops, get_stage_global_option, resolve_log,
          resolve_future, TaskRunner.start, run_task_flag, await_futures, await_step,
          deep_merge_many, deep_merge, mergeLoop]
  exact ⟨hrun, (C6_flow_sequence 10 C6_skip_flow [] test_ops 1 1 _ _ hrun).2.1⟩

/-- C7: the Combination Expander returns the cartesian product across
groups of the per-group products over candidate lists: the number of
combinations is the product of every candidate-list length at every
level; an absent or empty global option specification yields exactly the
single empty combination; and on the spec's example the order follows
the input key and value order. -/
theorem C7_combination_product :
    (∀ g, (get_global_option_comb g).length
        = (g.map (fun e => (e.2.map (fun kv => kv.2.length)).prod)).prod)
  ∧ get_comb_list none = [[]]
  ∧ get_comb_list (some []) = [[]]
  ∧ get_global_option_comb
      [("s1", [("x", [Value.int 1, Value.int 2]), ("y", [Value.str "a"])])]
    = [[("s1", [("x", Value.int 1), ("y", Value.str "a")])],
       [("s1", [("x", Value.int 2), ("y", Value.str "a")])]] := by
  refine ⟨?_, rfl, rfl, ?_⟩
  · intro g
    simp only [get_global_option_comb, List.length_map, list_product_length]
    congr 1
    rw [List.map_map]
    apply List.map_congr_left
    intro e he
    simp [inner_combos, list_product_length, Function.comp_def]
  · simp [get_global_option_comb, inner_combos, list_product]

/-- C8: the source's list-merge equals the spec-worded policy: both
operands coerced to sequences (non-sequences wrapped as one-element
sequences), then each override element inserted in order — mappings
deep-merged into the first mapping element present, appended only when
none exists; other values appended only when not already present.  The
second conjunct places the policy at a merge key: whenever a key's two
values are not both mappings and either is a sequence, deep_merge stores
the list-merge of the two values at that key. -/
theorem C8_list_merge_policy :
    (∀ a b, merge_to_list a b
        = (spec_coerce_list b).foldl spec_list_insert (spec_coerce_list a))
  ∧ (∀ result k v rest av, Dict.lookup result k = some av →
      (isDict av && isDict v) = false → (isList av || isList v) = true →
      mergeLoop result ((k, v) :: rest)
        = mergeLoop (Dict.setKey result k (Value.list (merge_to_list av v))) rest) := by
  constructor
  · intro a b
    simp only [merge_to_list, itemsLoop_foldl, spec_coerce_list]
  · intro result k v rest av hl hnd hls
    rw [mergeLoop]
    simp [hl, hnd, hls]

/-- Witness for C8 at a concrete key whose base value is a list and
override value a scalar. -/
theorem C8_witness :
    Dict.lookup [("k", Value.list [Value.int 1])] "k" = some (Value.list [Value.int 1])
  ∧ (isDict (Value.list [Value.int 1]) && isDict (Value.int 2)) = false
  ∧ (isList (Value.list [Value.int 1]) || isList (Value.int 2)) = true
  ∧ mergeLoop [("k", Value.list [Value.int 1])] [("k", Value.int 2)]
      = mergeLoop (Dict.setKey [("k", Value.list [Value.int 1])] "k"
          (Value.list (merge_to_list (Value.list [Value.int 1]) (Value.int 2)))) [] := by
  refine ⟨by simp [Dict.lookup], by simp [isDict], by simp [isList], ?_⟩
  exact C8_list_merge_policy.2 [("k", Value.list [Value.int 1])] "k" (Value.int 2) []
    (Value.list [Value.int 1]) (by simp [Dict.lookup]) (by simp [isDict]) (by simp [isList])

/-- C9: the merge is non-mutating and deterministic — on the heap
embedding, a successful deep merge leaves every pre-existing address
unchanged (both inputs structurally intact), only grows the heap, and
returns a root address allocated by the call itself (a new structure);
and the pure merge gives equal outputs on equal inputs. -/
theorem C9_merge_nonmutating (fuel : Nat) (h h2 : Heap) (a b r : Nat)
    (hm : deep_mergeH fuel h a b = some (h2, r)) :
    (∀ i, i < h.length → h2[i]? = h[i]?)
  ∧ h.length ≤ h2.length
  ∧ h.length ≤ r
  ∧ r < h2.length
  ∧ (∀ d1 d2 d1s d2s : Dict, d1 = d1s → d2 = d2s → deep_merge d1 d2 = deep_merge d1s d2s) := by
  obtain ⟨hp, hr1, hr2⟩ := (heap_discipline fuel).2.2.2.1 h a b h2 r hm
  exact ⟨hp.2, hp.1, hr1, hr2, fun d1 d2 d1s d2s e1 e2 => by rw [e1, e2]⟩

/-- Witness for C9: merging the empty dict at address 2 with the dict
{x: 5} at address 1 allocates fresh objects only, leaving addresses
0, 1 and 2 untouched. -/
theorem C9_witness :
    deep_mergeH 10 [HObj.hint 5, HObj.hdict [("x", 0)], HObj.hdict []] 2 1
      = some ([HObj.hint 5, HObj.hdict [("x", 0)], HObj.hdict [],
               HObj.hdict [("x", 4)], HObj.hint 5], 3)
  ∧ (∀ i, i < 3 →
      ([HObj.hint 5, HObj.hdict [("x", 0)], HObj.hdict [],
        HObj.hdict [("x", 4)], HObj.hint 5] : Heap)[i]?
        = ([HObj.hint 5, HObj.hdict [("x", 0)], HObj.hdict []] : Heap)[i]?) := by
  have heval : deep_mergeH 10 [HObj.hint 5, HObj.hdict [("x", 0)], HObj.hdict []] 2 1
      = some ([HObj.hint 5, HObj.hdict [("x", 0)], HObj.hdict [],
               HObj.hdict [("x", 4)], HObj.hint 5], 3) := by
    simp [deep_mergeH, deepcopyH, deepcopyDictH, deepcopyListH, merge_loopH,
          Heap.alloc, alist_get, alist_set, isDictAt, isListAt, dictSetAt]
  exact ⟨heval, (C9_merge_nonmutating 10 _ _ 2 1 3 heval).1⟩

/-- C10: in the diamond A -> B, A -> C, B -> D, C -> D the re-convergent
task D is submitted once per path: the submission log contains D twice,
once chained on B's future (index 1) and once on C's future (index 3),
and all five submissions are awaited. -/
theorem C10_reconvergent_twice
    (h1 h2 h3 h4 : Handler) (o1 o2 o3 o4 dOpt gOpt : Dict)
    (d1 d2 d3 d4 : Option String) :
    ((run_stage_build 10 (diamond_stage h1 h2 h3 h4 o1 o2 o3 o4 dOpt gOpt d1 d2 d3 d4)).1.map
        (fun s => (s.task_data.name, s.prev))
      = [("A", none), ("B", some 0), ("D", some 1), ("C", some 0), ("D", some 3)])
  ∧ (run_stage_build 10 (diamond_stage h1 h2 h3 h4 o1 o2 o3 o4 dOpt gOpt d1 d2 d3 d4)).2
      = Except.ok [0, 1, 2, 3, 4] := by
  constructor <;>
    simp [run_stage_build, heads_loop, run_task, run_links, chain_part, chain_links,
          alist_get, diamond_stage]
